import Mathlib

/-!
Verification of the NMB-cli module orchestrator (`cli.py`).

The development shallowly embeds the parts of `cli.py` that the claims are
about: file contents are `List Char` (the decoded text of the file), the
local filesystem is a map `String → Option (List Char)` from path to
content, the running-instance table (`active_processes`, a Python dict)
is an association list with unique keys, and Python exceptions are an
explicit `Except` result.  Remote effects (the SSH channel) are modelled
by an oracle: the captured stdout/stderr of the single remote command a
launch executes are fields of the state.
-/

set_option autoImplicit false

namespace NMBCli

/-! ## Python text primitives

Models of the Python `str` operations the source uses: `str.strip()`,
`str.split(sep)`, `str.lower()`, `str.replace('\r\n','\n')`. -/

/-- The characters Python's `str.strip()` removes (the ASCII whitespace
Python treats as such and which can occur in module files). -/
def pyIsSpace (c : Char) : Bool :=
  c == ' ' || c == '\t' || c == '\n' || c == '\r' || c == '\x0b' || c == '\x0c'

/-- Python `s.strip()`: remove leading and trailing whitespace. -/
def pyStrip (l : List Char) : List Char :=
  ((l.dropWhile pyIsSpace).reverse.dropWhile pyIsSpace).reverse

/-- Python `s.lower()` (ASCII case folding suffices for the marker values). -/
def pyLower (l : List Char) : List Char :=
  l.map Char.toLower

/-- Python `s.split(sep)` for a one-character separator: splits on every
occurrence, keeping empty pieces; `"".split(sep) = ['']`. -/
def pySplit (sep : Char) : List Char → List (List Char)
  | [] => [[]]
  | c :: rest =>
    if c = sep then [] :: pySplit sep rest
    else
      match pySplit sep rest with
      | [] => [[c]]
      | p :: ps => (c :: p) :: ps

/-- Iterating over a file's text line by line (`for line in file`),
modelled as splitting the content on `'\n'`.  (Python keeps the
terminator on each line; every use in the source either checks a prefix
at column zero or `strip()`s the line, so dropping the terminator is
observationally the same.) -/
def pyLines (content : List Char) : List (List Char) :=
  pySplit '\n' content

/-- `SSHModuleManager.convert_line_endings_to_unix` (cli.py:45-53), the
pure text transformation: Python's `content.replace('\r\n', '\n')`, a
single left-to-right pass replacing each leftmost occurrence.  (The
method reads the file, applies this to the decoded text and writes the
result back in place; a decode failure is caught and leaves the file
unchanged — such inputs are outside this text-level model.) -/
def convert_line_endings_to_unix : List Char → List Char
  | [] => []
  | [c] => [c]
  | c :: d :: rest =>
    if c = '\r' ∧ d = '\n' then '\n' :: convert_line_endings_to_unix rest
    else c :: convert_line_endings_to_unix (d :: rest)

/-- Whether the text contains the two-character sequence CR LF. -/
def hasCRLF : List Char → Bool
  | c :: d :: rest => (c == '\r' && d == '\n') || hasCRLF (d :: rest)
  | _ => false

/-- Whether the text contains the two-character sequence CR CR. -/
def hasCRCR : List Char → Bool
  | c :: d :: rest => (c == '\r' && d == '\r') || hasCRCR (d :: rest)
  | _ => false

/-- Python `s.endswith(suffix)` (on the character level). -/
def pyEndsWith (s suffix : String) : Bool :=
  suffix.toList.isSuffixOf s.toList

/-- Python truthiness of an optional string: `None` and `''` are falsy. -/
def pyTruthy : Option (List Char) → Bool
  | none => false
  | some s => decide (s ≠ [])

/-! ## Module descriptor parsers (`ModuleManager.parse_*`)

Each parser scans the file's lines for its marker prefix and returns at
the first hit; an absent marker yields the documented default. -/

/-- The marker line prefixes used by the parsers. -/
def silentMarker : List Char := "# Silent:".toList

def followLogMarker : List Char := "# Follow_log:".toList

def logfileMarker : List Char := "# Logfile:".toList

def dependenciesMarker : List Char := "# Dependencies:".toList

/-- `ModuleManager.parse_silent_flag` (cli.py:184-189):
`line.strip().split(':')[1].strip().lower() == 'true'` on the first
`# Silent:` line, `False` when the marker is absent. -/
def parse_silent_flag : List (List Char) → Bool
  | [] => false
  | line :: rest =>
    if silentMarker.isPrefixOf line then
      pyLower (pyStrip ((pySplit ':' (pyStrip line)).getD 1 [])) == "true".toList
    else parse_silent_flag rest

/-- `ModuleManager.parse_follow_log_flag` (cli.py:166-171), same shape as
the silent flag with the `# Follow_log:` marker. -/
def parse_follow_log_flag : List (List Char) → Bool
  | [] => false
  | line :: rest =>
    if followLogMarker.isPrefixOf line then
      pyLower (pyStrip ((pySplit ':' (pyStrip line)).getD 1 [])) == "true".toList
    else parse_follow_log_flag rest

/-- `ModuleManager.parse_logfile_path` (cli.py:191-196):
`line.strip().split(':')[1].strip()` on the first `# Logfile:` line
(note: `split(':')` splits on every colon and `[1]` is the piece between
the first and second colon), `None` when the marker is absent. -/
def parse_logfile_path : List (List Char) → Option (List Char)
  | [] => none
  | line :: rest =>
    if logfileMarker.isPrefixOf line then
      some (pyStrip ((pySplit ':' (pyStrip line)).getD 1 []))
    else parse_logfile_path rest

/-- `ModuleManager.parse_dependencies` (cli.py:173-181):
`[dep.strip() for dep in line.strip().split(':')[1].split(',')]` on the
first `# Dependencies:` line, `[]` when the marker is absent. -/
def parse_dependencies : List (List Char) → List (List Char)
  | [] => []
  | line :: rest =>
    if dependenciesMarker.isPrefixOf line then
      ((pySplit ',' ((pySplit ':' (pyStrip line)).getD 1 [])).map pyStrip)
    else parse_dependencies rest

/-! ## Dependency installer (`ModuleManager.install_dependencies`) -/

/-- One observable step of `ModuleManager.install_dependencies`
(cli.py:207-223). -/
inductive InstallAction where
  /-- `sudo apt install -y <dep>` run over the SSH channel. -/
  | remoteInstall (dep : List Char)
  /-- `subprocess.run(['sudo','apt','install','-y',dep], check=True)`. -/
  | localInstall (dep : List Char)
  /-- "Dependency ... is already installed." (no command run). -/
  | alreadyInstalled (dep : List Char)
  deriving DecidableEq

/-- `ModuleManager.install_dependencies` (cli.py:207-223) as the sequence
of actions it performs.  `ssh_active` is the truthiness of
`self.ssh_manager`; `whichP dep` models `shutil.which(dep) is not None`
(the `is_dependency_installed` check, cli.py:112-114). -/
def install_dependencies (ssh_active : Bool) (whichP : List Char → Bool)
    (deps : List (List Char)) : List InstallAction :=
  deps.map fun dep =>
    if ssh_active then InstallAction.remoteInstall dep
    else if whichP dep then InstallAction.alreadyInstalled dep
    else InstallAction.localInstall dep

/-! ## Python dict model (for `active_processes`)

`self.active_processes` is a Python dict from module name to process
handle: an association list with unique keys, assignment replacing in
place, `del` removing the entry. -/

/-- `d.get(k)` / `d[k]`: the value of the first (only) entry with key `k`. -/
def dictLookup (k : String) : List (String × Nat) → Option Nat
  | [] => none
  | (k', v) :: rest => if k' = k then some v else dictLookup k rest

/-- `d[k] = v`: replace the entry with key `k` in place, or append. -/
def dictInsert (k : String) (v : Nat) : List (String × Nat) → List (String × Nat)
  | [] => [(k, v)]
  | (k', v') :: rest =>
    if k' = k then (k, v) :: rest else (k', v') :: dictInsert k v rest

/-- `del d[k]`: drop the (unique) entry with key `k`. -/
def dictErase (k : String) : List (String × Nat) → List (String × Nat)
  | [] => []
  | (k', v') :: rest => if k' = k then rest else (k', v') :: dictErase k rest

/-! ## The exceptions the modelled code can raise -/

/-- Python exceptions reachable in the modelled operations. -/
inductive PyExn where
  /-- `open(None, 'w')` in the remote launch path (no `# Logfile:` marker). -/
  | typeError
  /-- a method call on `ssh_client` when it is `None` (after `disconnect`). -/
  | attributeError
  /-- `run_remote_script` on an unsupported file extension. -/
  | valueError
  /-- `open('', ...)` when the parsed log path is the empty string. -/
  | fileNotFoundError
  deriving DecidableEq

deriving instance DecidableEq for Except

/-! ## SSH session adapter (`SSHModuleManager`) and program state -/

/-- An `SSHModuleManager` object (cli.py:24-98).  `connected` records
whether `self.ssh_client` holds a live client (`connect` sets it,
`disconnect` closes it and sets it back to `None`). -/
structure SSHMgr where
  hostname : String
  username : String
  remote_path : String
  connected : Bool
  deriving DecidableEq

/-- The state a `ModuleManager` operation can read or write: the local
filesystem (path to decoded text), the `active_processes` dict, the
`ssh_manager` field, plus bookkeeping for the externally observable
effects — the next fresh process handle, the termination requests issued
so far, the console lines printed so far, and the oracle giving the
stdout/stderr a remote command would produce. -/
structure MMState where
  fs : String → Option (List Char)
  active_processes : List (String × Nat)
  ssh_manager : Option SSHMgr
  next_pid : Nat
  terminated : List Nat
  printed : List String
  remote_stdout : List Char
  remote_stderr : List Char

/-- `self.modules_dir` (cli.py:104). -/
def modulesDir : String := "modules"

/-- `os.path.join(self.modules_dir, module_name)` for a plain file name. -/
def modulePathOf (module_name : String) : String :=
  modulesDir ++ "/" ++ module_name

/-- `SSHModuleManager.transfer_file` (cli.py:55-69): missing local file
is reported and the method returns; otherwise the local file is
rewritten in place with normalized line endings
(`convert_line_endings_to_unix`, cli.py:62) and then copied over SCP —
an SCP fault (here: the closed `ssh_client` after a disconnect) is
caught and reported inside the method. -/
def transfer_file (mgr : SSHMgr) (st : MMState) (local_path : String) : MMState :=
  match st.fs local_path with
  | none => { st with printed := st.printed ++ ["File not found: " ++ local_path] }
  | some content =>
    let st1 : MMState :=
      { st with fs := fun q =>
          if q = local_path then some (convert_line_endings_to_unix content)
          else st.fs q }
    if mgr.connected then
      { st1 with printed := st1.printed ++ ["File transferred successfully: " ++ local_path] }
    else
      { st1 with printed := st1.printed ++ ["Error transferring file: " ++ local_path] }

/-- `SSHModuleManager.run_remote_script` (cli.py:71-87): raises
`ValueError` for an extension other than `.sh`/`.py`; otherwise executes
the command remotely (`AttributeError` when `ssh_client` is `None`) and
returns `stdout.strip() + ('\n' + stderr.strip() if stderr.strip() else '')`,
where `S`/`E` are the captured stdout and stderr texts. -/
def run_remote_script (mgr : SSHMgr) (S E : List Char) (script_name : String)
    (args : List String) : Except PyExn (List Char) :=
  if pyEndsWith script_name ".sh" || pyEndsWith script_name ".py" then
    if mgr.connected then
      Except.ok (pyStrip S ++ (if pyStrip E = [] then [] else '\n' :: pyStrip E))
    else Except.error PyExn.attributeError
  else Except.error PyExn.valueError

/-! ## The execution engine (`ModuleManager.launch_module` and friends) -/

/-- The local-execution branch of `ModuleManager.launch_module`
(cli.py:282-299), entered when `self.ssh_manager` is falsy.  If
`is_silent` and the log path is truthy, the log file is opened in append
mode (creating it empty when absent) and the process's streams are
redirected there; the spawned process gets the next fresh handle and is
recorded in `active_processes` under the module name, replacing any
previous entry without a termination request; with `Follow_log` and a
truthy log path, an additional untracked `tmux` tail process is spawned. -/
def launch_local_branch (st : MMState) (module_name : String) (content : List Char) :
    MMState :=
  let is_silent := parse_silent_flag (pyLines content)
  let logfile_path := parse_logfile_path (pyLines content)
  let pid := st.next_pid
  let stA : MMState :=
    if is_silent && pyTruthy logfile_path then
      { st with
        fs := fun q =>
          if q = String.mk (logfile_path.getD []) then
            some ((st.fs (String.mk (logfile_path.getD []))).getD [])
          else st.fs q,
        next_pid := st.next_pid + 1 }
    else { st with next_pid := st.next_pid + 1 }
  let stB : MMState :=
    { stA with
      active_processes := dictInsert module_name pid stA.active_processes,
      printed := stA.printed ++ ["Module " ++ module_name ++ " launched."] }
  let stC : MMState :=
    if is_silent && pyTruthy logfile_path then
      { stB with printed := stB.printed ++ ["Logging output to " ++ String.mk (logfile_path.getD [])] }
    else stB
  let follow_log := parse_follow_log_flag (pyLines content)
  if follow_log && pyTruthy logfile_path then
    { stC with
      next_pid := stC.next_pid + 1,
      printed := stC.printed ++ ["Following log in new tmux window: " ++ String.mk (logfile_path.getD [])] }
  else stC

/-- `ModuleManager.launch_module` (cli.py:254-301).  Returns the updated
state together with the Python outcome: `Except.ok b` when the method
returns the boolean `b`, `Except.error e` when it raises `e` (side
effects up to the raise point are kept, as in Python).  A missing module
file or an unsupported extension returns `False`; with a truthy
`ssh_manager` the remote branch transfers the file twice (cli.py:274 and
276 both call `transfer_file`), runs the script remotely and writes the
combined output to the parsed log path (`open(logfile_path, 'w')` raises
`TypeError` on `None` and `FileNotFoundError` on `''`); otherwise the
local branch applies. -/
def launch_module (st : MMState) (module_name : String) (args : List String) :
    MMState × Except PyExn Bool :=
  let module_path := modulePathOf module_name
  match st.fs module_path with
  | none =>
    ({ st with printed := st.printed ++ ["Module " ++ module_name ++ " not found."] },
     Except.ok false)
  | some content =>
    let logfile_path := parse_logfile_path (pyLines content)
    if pyEndsWith module_path ".sh" || pyEndsWith module_path ".py" then
      match st.ssh_manager with
      | some mgr =>
        let st1 := transfer_file mgr st module_path
        let st2 := transfer_file mgr st1 module_path
        match run_remote_script mgr st.remote_stdout st.remote_stderr module_name args with
        | Except.error e => (st2, Except.error e)
        | Except.ok output =>
          let st3 : MMState :=
            { st2 with printed := st2.printed ++
                ["Saving results to " ++
                  (match logfile_path with
                   | some lp => String.mk lp
                   | none => "None")] }
          match logfile_path with
          | none => (st3, Except.error PyExn.typeError)
          | some lp =>
            if lp = [] then (st3, Except.error PyExn.fileNotFoundError)
            else
              ({ st3 with fs := fun q => if q = String.mk lp then some output else st3.fs q },
               Except.ok true)
      | none => (launch_local_branch st module_name content, Except.ok true)
    else
      ({ st with printed := st.printed ++ ["Unsupported module type: " ++ module_name] },
       Except.ok false)

/-- `ModuleManager.stop_module` (cli.py:318-325): a tracked instance gets
a `terminate()` request and its dict entry is deleted; otherwise only a
"No running module" line is printed. -/
def stop_module (st : MMState) (module_name : String) : MMState :=
  match dictLookup module_name st.active_processes with
  | some p =>
    { st with
      terminated := st.terminated ++ [p],
      printed := st.printed ++ ["Module " ++ module_name ++ " stopped."],
      active_processes := dictErase module_name st.active_processes }
  | none =>
    { st with printed := st.printed ++ ["No running module named " ++ module_name ++ "."] }

/-- `ModuleManager.remove_module` (cli.py:327-335). -/
def remove_module (st : MMState) (module_name : String) : MMState × Bool :=
  let module_path := modulePathOf module_name
  match st.fs module_path with
  | some _ =>
    ({ st with
        fs := fun q => if q = module_path then none else st.fs q,
        printed := st.printed ++ ["Module " ++ module_name ++ " has been removed."] },
     true)
  | none =>
    ({ st with printed := st.printed ++ ["Module " ++ module_name ++ " not found."] }, false)

/-! ## The interactive engine (`Engine`) and its SSH handlers

`Engine.handle_ssh_connect` (cli.py:384-397) builds a fresh
`SSHModuleManager`, connects it, and replaces `self.module_manager` with
a new `ModuleManager` holding a reference to that same object;
`Engine.handle_ssh_disconnect` (cli.py:466-473) closes the session
through `self.ssh_manager` and sets only that field to `None`.  Both
`Engine.ssh_manager` and `ModuleManager.ssh_manager` alias one Python
object, so closing it through the engine's reference is visible through
the module manager's — modelled here by updating the copy held in
`mm.ssh_manager` in step with the object. -/

/-- The `Engine` fields the claims depend on: its own `ssh_manager`
reference and the current `module_manager`. -/
structure EngineState where
  ssh_manager : Option SSHMgr
  mm : MMState

/-- `Engine.handle_ssh_connect` (cli.py:384-397), after the
`user@hostname` command has been split by the front end and the password
prompt has succeeded: a fresh connected `SSHModuleManager` with remote
path `"/tmp/"`, and a fresh `ModuleManager` (empty `active_processes`)
holding the same object. -/
def handle_ssh_connect (st : EngineState) (username hostname : String) : EngineState :=
  let mgr : SSHMgr :=
    { hostname := hostname, username := username, remote_path := "/tmp/", connected := true }
  { ssh_manager := some mgr,
    mm := { st.mm with
              active_processes := [],
              ssh_manager := some mgr,
              printed := st.mm.printed ++ ["Connected to " ++ hostname ++ " as " ++ username] } }

/-- `Engine.handle_ssh_disconnect` (cli.py:466-473): with an active
reference, `disconnect()` sets the shared object's `ssh_client` to
`None` and the engine's own field is cleared — the module manager keeps
its (now closed) reference; without one, only a message is printed. -/
def handle_ssh_disconnect (st : EngineState) : EngineState :=
  match st.ssh_manager with
  | some _ =>
    { ssh_manager := none,
      mm := { st.mm with
                ssh_manager := st.mm.ssh_manager.map (fun m => { m with connected := false }),
                printed := st.mm.printed ++ ["Disconnected from SSH session."] } }
  | none =>
    { st with mm := { st.mm with printed := st.mm.printed ++ ["No active SSH session to disconnect."] } }

/-- `get_bottom_toolbar_tokens` (cli.py:338-342): the engine shows an
active connection exactly when `app.ssh_manager and
app.ssh_manager.ssh_client` is truthy — the Remote Session is
`Connected` in the spec's sense. -/
def sessionActive (st : EngineState) : Bool :=
  match st.ssh_manager with
  | some m => m.connected
  | none => false

/-- The dispatch condition of `ModuleManager.launch_module` (cli.py:272):
the remote branch is taken iff `self.ssh_manager` is truthy. -/
def takesRemotePath (st : MMState) : Bool :=
  st.ssh_manager.isSome

/-! ## Claim-side reference definitions and concrete states -/

/-- The combined output as the spec's words describe it: the captured
stdout `S` in full, followed by the captured stderr `E` if `E` is
non-empty, separated by exactly one line break. -/
def combined_output_claim (S E : List Char) : List Char :=
  S ++ (if E = [] then [] else '\n' :: E)

/-- `parse_logfile_path` as the claim words it: the whitespace-trimmed
suffix of the marker line after a single colon split — everything after
the first colon, including any colons in the path. -/
def parse_logfile_path_claim : List (List Char) → Option (List Char)
  | [] => none
  | line :: rest =>
    if logfileMarker.isPrefixOf line then
      some (pyStrip (((pyStrip line).dropWhile (fun c => c != ':')).drop 1))
    else parse_logfile_path_claim rest

/-- The text between the first and the second colon (or to the end when
there is no second colon): what `split(':')[1]` actually selects. -/
def betweenColons (l : List Char) : List Char :=
  ((l.dropWhile (fun c => c != ':')).drop 1).takeWhile (fun c => c != ':')

/-- A connected session adapter for concrete evaluations. -/
def mgrConn : SSHMgr :=
  { hostname := "h", username := "u", remote_path := "/tmp/", connected := true }

/-- C4 counterexample input: `"\r\r\n"`. -/
def c4Input : List Char := ['\r', '\r', '\n']

/-- C9 counterexample input: a marker line whose path contains a colon. -/
def c9Line : List Char := "# Logfile: a:b".toList

/-! ## Concrete states for counterexamples and witnesses -/

/-- The module-manager state at program start: empty filesystem, no
tracked processes, no SSH session. -/
def mmBase : MMState :=
  { fs := fun _ => none, active_processes := [], ssh_manager := none, next_pid := 0,
    terminated := [], printed := [], remote_stdout := [], remote_stderr := [] }

/-- A module source with no metadata markers. -/
def plainContent : List Char := "echo hi".toList

/-- Engine start state with one installed module `m.sh`. -/
def c1St0 : EngineState :=
  { ssh_manager := none,
    mm := { mmBase with fs := fun p => if p = "modules/m.sh" then some plainContent else none } }

/-- A module source declaring a log path, with CRLF line endings. -/
def c2Content : List Char := "# Logfile: logs/x\nhello\r\nworld".toList

/-- Connected-session state with `m.sh` holding `c2Content` installed. -/
def c2St : MMState :=
  { mmBase with
      fs := fun p => if p = "modules/m.sh" then some c2Content else none,
      ssh_manager := some mgrConn,
      remote_stdout := "out".toList }

/-- Connected-session state with `m.sh` holding marker-free content. -/
def c3St : MMState :=
  { mmBase with
      fs := fun p => if p = "modules/m.sh" then some plainContent else none,
      ssh_manager := some mgrConn,
      remote_stdout := "out".toList }

/-- Local state with `m.sh` installed (marker-free content). -/
def c6St : MMState :=
  { mmBase with fs := fun p => if p = "modules/m.sh" then some plainContent else none }

/-- A state tracking two running instances. -/
def c7St : MMState :=
  { mmBase with active_processes := [("a", 5), ("b", 7)] }

/-! ## Lemmas about the dict model -/

theorem dictLookup_insert_self (k : String) (v : Nat) : ∀ l,
    dictLookup k (dictInsert k v l) = some v
  | [] => by simp [dictInsert, dictLookup]
  | (k', v') :: rest => by
    by_cases h : k' = k
    · simp [dictInsert, h, dictLookup]
    · simp [dictInsert, h, dictLookup, dictLookup_insert_self k v rest]

theorem dictLookup_eq_none_of_not_mem (k : String) : ∀ l : List (String × Nat),
    k ∉ l.map Prod.fst → dictLookup k l = none
  | [], _ => rfl
  | (k', v') :: rest, h => by
    simp only [List.map_cons, List.mem_cons, not_or] at h
    have hne : ¬ k' = k := fun hx => h.1 hx.symm
    simp [dictLookup, hne, dictLookup_eq_none_of_not_mem k rest h.2]

theorem dictLookup_erase_ne (k q : String) (hqk : q ≠ k) : ∀ l,
    dictLookup q (dictErase k l) = dictLookup q l
  | [] => rfl
  | (k', v') :: rest => by
    by_cases h : k' = k
    · have hne : ¬ k = q := fun hx => hqk hx.symm
      simp [dictErase, h, dictLookup, hne]
    · by_cases h2 : k' = q <;>
        simp [dictErase, h, dictLookup, h2, hqk, dictLookup_erase_ne k q hqk rest]

theorem dictLookup_erase_self (k : String) : ∀ l : List (String × Nat),
    (l.map Prod.fst).Nodup → dictLookup k (dictErase k l) = none
  | [], _ => rfl
  | (k', v') :: rest, h => by
    simp only [List.map_cons, List.nodup_cons] at h
    by_cases hk : k' = k
    · subst hk
      simp [dictErase, dictLookup_eq_none_of_not_mem k' rest h.1]
    · simp [dictErase, hk, dictLookup, dictLookup_erase_self k rest h.2]

theorem dictErase_length (k : String) : ∀ (l : List (String × Nat)) (p : Nat),
    dictLookup k l = some p → (dictErase k l).length + 1 = l.length
  | [], p, h => by simp [dictLookup] at h
  | (k', v') :: rest, p, h => by
    by_cases hk : k' = k
    · simp [dictErase, hk]
    · simp only [dictLookup, if_neg hk] at h
      simp [dictErase, hk, dictErase_length k rest p h]

theorem mem_keys_dictInsert (k q : String) (v : Nat) : ∀ l : List (String × Nat),
    q ∈ (dictInsert k v l).map Prod.fst → q = k ∨ q ∈ l.map Prod.fst
  | [] => by simp [dictInsert]
  | (k', v') :: rest => by
    by_cases h : k' = k
    · simp only [dictInsert, if_pos h, List.map_cons, List.mem_cons]
      tauto
    · simp only [dictInsert, if_neg h, List.map_cons, List.mem_cons]
      intro hq
      rcases hq with hq | hq
      · exact Or.inr (Or.inl hq)
      · rcases mem_keys_dictInsert k q v rest hq with hh | hh
        · exact Or.inl hh
        · exact Or.inr (Or.inr hh)

theorem dictInsert_keys_nodup (k : String) (v : Nat) : ∀ l : List (String × Nat),
    (l.map Prod.fst).Nodup → ((dictInsert k v l).map Prod.fst).Nodup
  | [], _ => by simp [dictInsert]
  | (k', v') :: rest, h => by
    simp only [List.map_cons, List.nodup_cons] at h
    by_cases hk : k' = k
    · subst hk
      simp only [dictInsert, eq_self_iff_true, if_true, List.map_cons, List.nodup_cons]
      exact h
    · simp only [dictInsert, if_neg hk, List.map_cons, List.nodup_cons]
      refine ⟨?_, dictInsert_keys_nodup k v rest h.2⟩
      intro hmem
      rcases mem_keys_dictInsert k k' v rest hmem with hh | hh
      · exact hk hh
      · exact h.1 hh

theorem countP_keys_zero (k : String) : ∀ l : List (String × Nat),
    k ∉ l.map Prod.fst → l.countP (fun e => e.1 == k) = 0
  | [], _ => rfl
  | (k', v') :: rest, h => by
    simp only [List.map_cons, List.mem_cons, not_or] at h
    have hne : (k' == k) = false := by
      have : ¬ k' = k := fun hx => h.1 hx.symm
      simp [this]
    simp [List.countP_cons, hne, countP_keys_zero k rest h.2]

theorem countP_dictInsert (k : String) (v : Nat) : ∀ l : List (String × Nat),
    (l.map Prod.fst).Nodup → (dictInsert k v l).countP (fun e => e.1 == k) = 1
  | [], _ => by simp [dictInsert, List.countP_cons]
  | (k', v') :: rest, h => by
    simp only [List.map_cons, List.nodup_cons] at h
    by_cases hk : k' = k
    · subst hk
      simp [dictInsert, List.countP_cons, countP_keys_zero k' rest h.1]
    · have hne : (k' == k) = false := by simp [hk]
      simp [dictInsert, hk, List.countP_cons, hne, countP_dictInsert k v rest h.2]

/-! ## Lemmas about the line-ending normalization -/

theorem conv_cons_ne (c : Char) (l : List Char) (h : c ≠ '\r') :
    convert_line_endings_to_unix (c :: l) = c :: convert_line_endings_to_unix l := by
  cases l with
  | nil => rfl
  | cons d t =>
    have hcd : ¬ (c = '\r' ∧ d = '\n') := fun hx => h hx.1
    simp [convert_line_endings_to_unix, hcd]

theorem hasCRLF_cons_ne (c : Char) (l : List Char) (h : c ≠ '\r') :
    hasCRLF (c :: l) = hasCRLF l := by
  cases l with
  | nil => simp [hasCRLF]
  | cons d t => simp [hasCRLF, h]

theorem hasCRCR_tail (c : Char) (l : List Char) (h : hasCRCR (c :: l) = false) :
    hasCRCR l = false := by
  cases l with
  | nil => rfl
  | cons d t =>
    simp only [hasCRCR, Bool.or_eq_false_iff] at h
    exact h.2

theorem convert_sublist : ∀ l : List Char,
    (convert_line_endings_to_unix l).Sublist l
  | [] => List.Sublist.refl _
  | [c] => List.Sublist.refl _
  | c :: d :: rest => by
    by_cases h : c = '\r' ∧ d = '\n'
    · obtain ⟨hc, hd⟩ := h
      subst hc; subst hd
      simp only [convert_line_endings_to_unix, if_pos (And.intro rfl rfl)]
      exact ((convert_sublist rest).cons₂ '\n').cons '\r'
    · simp only [convert_line_endings_to_unix, if_neg h]
      exact (convert_sublist (d :: rest)).cons₂ c

theorem convert_filter : ∀ l : List Char,
    (convert_line_endings_to_unix l).filter (fun c => c != '\r') =
      l.filter (fun c => c != '\r')
  | [] => rfl
  | [c] => rfl
  | c :: d :: rest => by
    by_cases h : c = '\r' ∧ d = '\n'
    · obtain ⟨hc, hd⟩ := h
      subst hc; subst hd
      simp only [convert_line_endings_to_unix, if_pos (And.intro rfl rfl)]
      simp [List.filter_cons, convert_filter rest]
    · simp only [convert_line_endings_to_unix, if_neg h]
      simp [List.filter_cons, convert_filter (d :: rest)]

theorem convert_noCRLF : ∀ l : List Char, hasCRCR l = false →
    hasCRLF (convert_line_endings_to_unix l) = false
  | [], _ => rfl
  | [c], _ => by
    cases hc : decide (c = '\r') <;> simp [convert_line_endings_to_unix, hasCRLF]
  | c :: d :: rest, h => by
    by_cases hcd : c = '\r' ∧ d = '\n'
    · obtain ⟨hc, hd⟩ := hcd
      subst hc; subst hd
      have hrest : hasCRCR rest = false := hasCRCR_tail _ _ (hasCRCR_tail _ _ h)
      simp only [convert_line_endings_to_unix, and_self, if_true]
      rw [hasCRLF_cons_ne '\n' _ (by decide)]
      exact convert_noCRLF rest hrest
    · by_cases hc : c = '\r'
      · subst hc
        have hd : d ≠ '\n' := fun hx => hcd ⟨rfl, hx⟩
        have hdr : d ≠ '\r' := by
          intro hx
          subst hx
          simp [hasCRCR] at h
        have htl : hasCRCR (d :: rest) = false := hasCRCR_tail _ _ h
        simp only [convert_line_endings_to_unix, if_neg hcd]
        rw [conv_cons_ne d rest hdr]
        have hrest : hasCRCR rest = false := hasCRCR_tail _ _ htl
        have hmain : hasCRLF (convert_line_endings_to_unix rest) = false :=
          convert_noCRLF rest hrest
        simp [hasCRLF, hd]
        rw [hasCRLF_cons_ne d _ hdr]
        exact hmain
      · simp only [convert_line_endings_to_unix, if_neg hcd]
        rw [hasCRLF_cons_ne c _ hc]
        exact convert_noCRLF (d :: rest) (hasCRCR_tail _ _ h)

/-- C4: the claim "the normalized output contains no CR LF" fails on the
input `"\r\r\n"`: the single left-to-right replacement pass rewrites it
to `"\r\n"`, which still contains CR LF. -/
theorem C4_counterexample :
    convert_line_endings_to_unix c4Input = ['\r', '\n'] ∧
      hasCRLF (convert_line_endings_to_unix c4Input) = true := by
  constructor
  · decide
  · decide

/-- C4 (amended): the normalization removes only carriage returns — the
output is a sublist of the input whose non-CR characters are exactly the
input's, in order — and whenever the input contains no CR CR sequence
the output contains no CR LF (an input containing CR CR can leave a new
CR LF behind, as the counterexample shows). -/
theorem C4_crlf_normalization (l : List Char) :
    (convert_line_endings_to_unix l).Sublist l ∧
      (convert_line_endings_to_unix l).filter (fun c => c != '\r') =
        l.filter (fun c => c != '\r') ∧
      (hasCRCR l = false → hasCRLF (convert_line_endings_to_unix l) = false) :=
  ⟨convert_sublist l, convert_filter l, convert_noCRLF l⟩

/-- C4 witness: the amended statement evaluated on `"a\r\nb\r"`. -/
theorem C4_crlf_normalization_witness :
    hasCRCR ("a\r\nb\r".toList) = false ∧
      hasCRLF (convert_line_endings_to_unix ("a\r\nb\r".toList)) = false ∧
      convert_line_endings_to_unix ("a\r\nb\r".toList) = "a\nb\r".toList :=
  ⟨by decide, (C4_crlf_normalization ("a\r\nb\r".toList)).2.2 (by decide), by decide⟩

/-! ## C8: the combined remote output -/

/-- C8 counterexample: with captured stdout `"ok\n"` and empty stderr,
the code returns `"ok"` — the trailing newline of the captured stdout is
stripped, so the returned output is not the captured stdout in full. -/
theorem C8_counterexample :
    run_remote_script mgrConn ("ok\n".toList) [] "m.sh" [] = Except.ok ("ok".toList) ∧
      combined_output_claim ("ok\n".toList) [] = "ok\n".toList ∧
      ("ok".toList : List Char) ≠ "ok\n".toList := by
  refine ⟨by decide, by decide, by decide⟩

/-- C8 (amended): for a `.sh`/`.py` script on a connected session, the
returned combined output is the whitespace-trimmed stdout in full,
followed by the whitespace-trimmed stderr when the latter is non-empty,
separated by exactly one line break (and the trimmed stdout alone when
the trimmed stderr is empty). -/
theorem C8_combined_output (mgr : SSHMgr) (S E : List Char) (name : String)
    (args : List String) (hconn : mgr.connected = true)
    (hext : (pyEndsWith name ".sh" || pyEndsWith name ".py") = true) :
    (pyStrip E = [] →
      run_remote_script mgr S E name args = Except.ok (pyStrip S)) ∧
    (pyStrip E ≠ [] →
      run_remote_script mgr S E name args = Except.ok (pyStrip S ++ '\n' :: pyStrip E)) := by
  constructor
  · intro hE
    simp [run_remote_script, hext, hconn, hE]
  · intro hE
    simp [run_remote_script, hext, hconn, hE]

/-- C8 witness: the amended statement evaluated at stdout `" a \n"` and
stderr `"warn\n"` for `x.py`. -/
theorem C8_combined_output_witness :
    mgrConn.connected = true ∧
      (pyEndsWith "x.py" ".sh" || pyEndsWith "x.py" ".py") = true ∧
      pyStrip ("warn\n".toList) ≠ [] ∧
      run_remote_script mgrConn (" a \n".toList) ("warn\n".toList) "x.py" [] =
        Except.ok ("a\nwarn".toList) :=
  ⟨rfl, by decide, by decide,
    by
      have h := (C8_combined_output mgrConn (" a \n".toList) ("warn\n".toList) "x.py" []
        rfl (by decide)).2 (by decide)
      rw [h]
      decide⟩

/-! ## C9: the parsed log file path -/

theorem pySplit_ne_nil (sep : Char) : ∀ l : List Char, pySplit sep l ≠ []
  | [] => by simp [pySplit]
  | c :: rest => by
    by_cases h : c = sep
    · simp [pySplit, h]
    · simp only [pySplit, if_neg h]
      cases hps : pySplit sep rest with
      | nil => simp
      | cons p ps => simp

theorem pySplit_head (sep : Char) : ∀ l : List Char,
    (pySplit sep l).headD [] = l.takeWhile (fun c => c != sep)
  | [] => by simp [pySplit]
  | c :: rest => by
    by_cases h : c = sep
    · subst h
      simp [pySplit, List.takeWhile]
    · simp only [pySplit, if_neg h]
      cases hps : pySplit sep rest with
      | nil => exact absurd hps (pySplit_ne_nil sep rest)
      | cons p ps =>
        have hh := pySplit_head sep rest
        rw [hps] at hh
        simp only [List.headD_cons] at hh
        have hb : (c != sep) = true := by simp [h]
        simp [List.takeWhile_cons, hb, hh]

theorem pySplit_getD_one (l : List Char) :
    (pySplit ':' l).getD 1 [] = betweenColons l := by
  induction l with
  | nil => simp [pySplit, betweenColons]
  | cons c rest ih =>
    by_cases h : c = ':'
    · subst h
      simp only [pySplit, if_pos rfl]
      have hh := pySplit_head ':' rest
      cases hps : pySplit ':' rest with
      | nil => exact absurd hps (pySplit_ne_nil ':' rest)
      | cons p ps =>
        rw [hps] at hh
        simp only [List.headD_cons] at hh
        simp [betweenColons, List.dropWhile, hh]
    · simp only [pySplit, if_neg h]
      cases hps : pySplit ':' rest with
      | nil => exact absurd hps (pySplit_ne_nil ':' rest)
      | cons p ps =>
        have h2 : (p :: ps).getD 1 [] = betweenColons rest := by
          rw [← hps]; exact ih
        have h3 : betweenColons (c :: rest) = betweenColons rest := by
          simp [betweenColons, List.dropWhile_cons, h]
        simp only [List.getD_cons_succ, List.getD_cons_zero] at h2 ⊢
        rw [h2, h3]

/-- C9: the claim says the parsed path is everything after the first
colon (colons in the path included), i.e. `"a:b"`; the code's
`split(':')[1]` instead yields `"a"`, truncating at the second colon. -/
theorem C9_counterexample :
    parse_logfile_path [c9Line] = some ("a".toList) ∧
      parse_logfile_path_claim [c9Line] = some ("a:b".toList) ∧
      parse_logfile_path [c9Line] ≠ parse_logfile_path_claim [c9Line] :=
  ⟨by decide, by decide, by decide⟩

/-- C9 (amended): the parsed log file path is the whitespace-trimmed
text between the first and the second colon of the stripped marker line
(a colon inside the path truncates it); when no `# Logfile:` marker line
is present, no path is produced. -/
theorem C9_logfile_path (lines : List (List Char)) :
    ((∀ line ∈ lines, logfileMarker.isPrefixOf line = false) →
       parse_logfile_path lines = none) ∧
    (∀ pre line post, lines = pre ++ line :: post →
       (∀ l2 ∈ pre, logfileMarker.isPrefixOf l2 = false) →
       logfileMarker.isPrefixOf line = true →
       parse_logfile_path lines = some (pyStrip (betweenColons (pyStrip line)))) := by
  induction lines with
  | nil =>
    constructor
    · intro _; rfl
    · intro pre line post hEq _ _
      exact absurd hEq (by simp)
  | cons hd tl ih =>
    constructor
    · intro h
      have hhd : logfileMarker.isPrefixOf hd = false := h hd (by simp)
      simp only [parse_logfile_path, hhd, Bool.false_eq_true, if_false]
      exact ih.1 (fun l hl => h l (by simp [hl]))
    · intro pre line post hEq hpre hline
      cases pre with
      | nil =>
        simp only [List.nil_append] at hEq
        injection hEq with h1 h2
        subst h1; subst h2
        simp only [parse_logfile_path, hline, if_true]
        rw [pySplit_getD_one]
      | cons p0 pre2 =>
        simp only [List.cons_append] at hEq
        injection hEq with h1 h2
        subst h1; subst h2
        have hp0 : logfileMarker.isPrefixOf hd = false := hpre hd (by simp)
        simp only [parse_logfile_path, hp0, Bool.false_eq_true, if_false]
        exact ih.2 pre2 line post rfl (fun l2 hl2 => hpre l2 (by simp [hl2])) hline

/-- C9 witness: the amended statement evaluated on the single marker
line `"# Logfile: a:b"`. -/
theorem C9_logfile_path_witness :
    logfileMarker.isPrefixOf c9Line = true ∧
      parse_logfile_path [c9Line] = some (pyStrip (betweenColons (pyStrip c9Line))) :=
  ⟨by decide, (C9_logfile_path [c9Line]).2 [] c9Line [] rfl (by simp) (by decide)⟩

/-! ## C10: an empty dependencies marker -/

/-- C10: on the marker line `"# Dependencies:"` with nothing after the
colon, `parse_dependencies` yields the one-element list containing the
empty string (not the empty list), and the local installer — with the
empty string absent from the executable search path, as `shutil.which('')`
always is — then attempts a `sudo apt install -y` of that empty package
name. -/
theorem C10_empty_dependency (whichP : List Char → Bool) (hwhich : whichP [] = false) :
    parse_dependencies [dependenciesMarker] = [[]] ∧
      install_dependencies false whichP (parse_dependencies [dependenciesMarker]) =
        [InstallAction.localInstall []] := by
  have hparse : parse_dependencies [dependenciesMarker] = [[]] := by decide
  refine ⟨hparse, ?_⟩
  rw [hparse]
  simp [install_dependencies, hwhich]

/-- C10 witness: the statement evaluated with the empty search path
(no executable found for any name). -/
theorem C10_empty_dependency_witness :
    (fun _ : List Char => false) [] = false ∧
      parse_dependencies [dependenciesMarker] = [[]] ∧
      install_dependencies false (fun _ => false) (parse_dependencies [dependenciesMarker]) =
        [InstallAction.localInstall []] :=
  ⟨rfl, (C10_empty_dependency (fun _ => false) rfl).1,
    (C10_empty_dependency (fun _ => false) rfl).2⟩

/-! ## Characterization of the launch branches -/

theorem llb_active (st : MMState) (n : String) (c : List Char) :
    (launch_local_branch st n c).active_processes =
      dictInsert n st.next_pid st.active_processes := by
  unfold launch_local_branch
  by_cases hA : (parse_silent_flag (pyLines c) && pyTruthy (parse_logfile_path (pyLines c))) = true <;>
    by_cases hB : (parse_follow_log_flag (pyLines c) && pyTruthy (parse_logfile_path (pyLines c))) = true <;>
      simp [hA, hB]

theorem llb_terminated (st : MMState) (n : String) (c : List Char) :
    (launch_local_branch st n c).terminated = st.terminated := by
  unfold launch_local_branch
  by_cases hA : (parse_silent_flag (pyLines c) && pyTruthy (parse_logfile_path (pyLines c))) = true <;>
    by_cases hB : (parse_follow_log_flag (pyLines c) && pyTruthy (parse_logfile_path (pyLines c))) = true <;>
      simp [hA, hB]

theorem llb_ssh (st : MMState) (n : String) (c : List Char) :
    (launch_local_branch st n c).ssh_manager = st.ssh_manager := by
  unfold launch_local_branch
  by_cases hA : (parse_silent_flag (pyLines c) && pyTruthy (parse_logfile_path (pyLines c))) = true <;>
    by_cases hB : (parse_follow_log_flag (pyLines c) && pyTruthy (parse_logfile_path (pyLines c))) = true <;>
      simp [hA, hB]

theorem llb_next_pid (st : MMState) (n : String) (c : List Char) :
    st.next_pid < (launch_local_branch st n c).next_pid := by
  unfold launch_local_branch
  by_cases hA : (parse_silent_flag (pyLines c) && pyTruthy (parse_logfile_path (pyLines c))) = true <;>
    by_cases hB : (parse_follow_log_flag (pyLines c) && pyTruthy (parse_logfile_path (pyLines c))) = true <;>
      (simp [hA, hB] <;> omega)

theorem llb_fs_pres (st : MMState) (n : String) (c : List Char) (q : String) (v : List Char)
    (hv : st.fs q = some v) : (launch_local_branch st n c).fs q = some v := by
  unfold launch_local_branch
  by_cases hA : (parse_silent_flag (pyLines c) && pyTruthy (parse_logfile_path (pyLines c))) = true <;>
    by_cases hB : (parse_follow_log_flag (pyLines c) && pyTruthy (parse_logfile_path (pyLines c))) = true <;>
      by_cases hq : q = String.mk ((parse_logfile_path (pyLines c)).getD []) <;>
        first
          | (subst hq; simp [hA, hB, hv])
          | simp [hA, hB, hq, hv]

theorem launch_module_not_found (st : MMState) (n : String) (a : List String)
    (h : st.fs (modulePathOf n) = none) :
    launch_module st n a =
      ({ st with printed := st.printed ++ ["Module " ++ n ++ " not found."] },
       Except.ok false) := by
  simp [launch_module, h]

theorem launch_module_unsupported (st : MMState) (n : String) (a : List String)
    (c : List Char) (hfs : st.fs (modulePathOf n) = some c)
    (hext : (pyEndsWith (modulePathOf n) ".sh" || pyEndsWith (modulePathOf n) ".py") = false) :
    launch_module st n a =
      ({ st with printed := st.printed ++ ["Unsupported module type: " ++ n] },
       Except.ok false) := by
  simp [launch_module, hfs, hext]

theorem launch_module_local_eq (st : MMState) (n : String) (a : List String)
    (c : List Char) (hssh : st.ssh_manager = none)
    (hfs : st.fs (modulePathOf n) = some c)
    (hext : (pyEndsWith (modulePathOf n) ".sh" || pyEndsWith (modulePathOf n) ".py") = true) :
    launch_module st n a = (launch_local_branch st n c, Except.ok true) := by
  simp [launch_module, hfs, hext, hssh]

theorem transfer_file_fs_self (mgr : SSHMgr) (st : MMState) (p : String) (c : List Char)
    (h : st.fs p = some c) :
    (transfer_file mgr st p).fs p = some (convert_line_endings_to_unix c) := by
  by_cases hc : mgr.connected = true <;> simp [transfer_file, h, hc]

theorem launch_module_remote_fs (st : MMState) (n : String) (a : List String)
    (mgr : SSHMgr) (c : List Char)
    (hssh : st.ssh_manager = some mgr)
    (hfs : st.fs (modulePathOf n) = some c)
    (hext : (pyEndsWith (modulePathOf n) ".sh" || pyEndsWith (modulePathOf n) ".py") = true)
    (hlp : ∀ lp, parse_logfile_path (pyLines c) = some lp → String.mk lp ≠ modulePathOf n) :
    (launch_module st n a).1.fs (modulePathOf n) =
      some (convert_line_endings_to_unix (convert_line_endings_to_unix c)) := by
  have h1 : (transfer_file mgr st (modulePathOf n)).fs (modulePathOf n) =
      some (convert_line_endings_to_unix c) := transfer_file_fs_self mgr st _ c hfs
  have h2 : (transfer_file mgr (transfer_file mgr st (modulePathOf n)) (modulePathOf n)).fs
      (modulePathOf n) =
      some (convert_line_endings_to_unix (convert_line_endings_to_unix c)) :=
    transfer_file_fs_self mgr _ _ _ h1
  simp only [launch_module, hfs, hext, hssh, if_true]
  cases hrun : run_remote_script mgr st.remote_stdout st.remote_stderr n a with
  | error e => simpa using h2
  | ok output =>
    cases hlpc : parse_logfile_path (pyLines c) with
    | none => simpa [hlpc] using h2
    | some lp =>
      by_cases hnil : lp = []
      · simpa [hlpc, hnil] using h2
      · have hne : ¬ modulePathOf n = String.mk lp :=
          fun hx => hlp lp hlpc hx.symm
        simpa [hlpc, hnil, hne] using h2

/-! ## C1: dispatch after a disconnect -/

/-- C1: the claim fails on the code, and the code contradicts its own
disconnect handling.  After `connect u@h` followed by `disconnect`, the
Remote Session is no longer active (`sessionActive` is false — the
toolbar shows "No Active SSH Connection"), yet `launch` still takes the
remote execution path, because `handle_ssh_disconnect` never clears the
recreated `ModuleManager`'s `ssh_manager` reference; the launch then
raises `AttributeError` on the closed `ssh_client` instead of running
locally. -/
theorem C1_stale_dispatch :
    sessionActive (handle_ssh_disconnect (handle_ssh_connect c1St0 "u" "h")) = false ∧
      takesRemotePath (handle_ssh_disconnect (handle_ssh_connect c1St0 "u" "h")).mm = true ∧
      (launch_module (handle_ssh_disconnect (handle_ssh_connect c1St0 "u" "h")).mm
          "m.sh" []).2 = Except.error PyExn.attributeError := by
  refine ⟨by decide, by decide, by decide⟩

/-! ## C2: the module file across a launch -/

/-- C2 counterexample: a remote launch of `m.sh`, whose source contains
a CRLF, rewrites `modules/m.sh` in place (the upload normalizes line
endings in the local file), so the bytes after the launch differ from
the bytes before. -/
theorem C2_counterexample :
    (launch_module c2St "m.sh" []).2 = Except.ok true ∧
      (launch_module c2St "m.sh" []).1.fs (modulePathOf "m.sh") ≠ some c2Content := by
  refine ⟨by decide, by decide⟩

/-- C2 (amended): a local launch never changes the module's file; a
remote launch of an existing `.sh`/`.py` module whose declared log path
is not the module path itself rewrites `modules/<name>` with the CRLF
normalization applied twice (the file is transferred twice), which is
the identity exactly on CRLF-free content. -/
theorem C2_module_file (st : MMState) (n : String) (a : List String) (c : List Char) :
    (st.ssh_manager = none →
      (launch_module st n a).1.fs (modulePathOf n) = st.fs (modulePathOf n)) ∧
    (∀ mgr, st.ssh_manager = some mgr →
      st.fs (modulePathOf n) = some c →
      (pyEndsWith (modulePathOf n) ".sh" || pyEndsWith (modulePathOf n) ".py") = true →
      (∀ lp, parse_logfile_path (pyLines c) = some lp → String.mk lp ≠ modulePathOf n) →
      (launch_module st n a).1.fs (modulePathOf n) =
        some (convert_line_endings_to_unix (convert_line_endings_to_unix c))) := by
  constructor
  · intro hssh
    cases hfs : st.fs (modulePathOf n) with
    | none =>
      rw [launch_module_not_found st n a hfs]
      exact hfs
    | some c2 =>
      by_cases hext : (pyEndsWith (modulePathOf n) ".sh" || pyEndsWith (modulePathOf n) ".py") = true
      · rw [launch_module_local_eq st n a c2 hssh hfs hext]
        exact llb_fs_pres st n c2 _ c2 hfs
      · rw [launch_module_unsupported st n a c2 hfs (by simpa using hext)]
        exact hfs.symm ▸ rfl
  · intro mgr hssh hfs hext hlp
    exact launch_module_remote_fs st n a mgr c hssh hfs hext hlp

/-- C2 witness: the amended statement evaluated at the connected state
`c2St`; `modules/m.sh` afterwards holds the doubly-normalized content. -/
theorem C2_module_file_witness :
    c2St.ssh_manager = some mgrConn ∧
      c2St.fs (modulePathOf "m.sh") = some c2Content ∧
      (launch_module c2St "m.sh" []).1.fs (modulePathOf "m.sh") =
        some (convert_line_endings_to_unix (convert_line_endings_to_unix c2Content)) :=
  ⟨rfl, by decide,
    (C2_module_file c2St "m.sh" [] c2Content).2 mgrConn rfl (by decide) (by decide)
      (by
        intro lp hl
        have hp : parse_logfile_path (pyLines c2Content) = some ("logs/x".toList) := by decide
        rw [hp] at hl
        cases hl
        decide)⟩

/-! ## C3: what launch can raise -/

/-- C3 counterexample: a remote launch of an existing `.sh` module that
declares no `# Logfile:` marker does not return a boolean — it raises
`TypeError` (from `open(None, 'w')`), which leaves `launch_module` and
is only absorbed by the interactive loop's blanket handlers. -/
theorem C3_counterexample :
    (launch_module c3St "m.sh" []).2 = Except.error PyExn.typeError := by
  decide

/-- C3 (amended): whenever no Remote Session reference is attached
(local dispatch), launch returns a success/failure boolean and raises
nothing — module-not-found and unsupported-type conditions are absorbed
at the operation boundary. -/
theorem C3_local_no_raise (st : MMState) (n : String) (a : List String)
    (hssh : st.ssh_manager = none) :
    ∃ b, (launch_module st n a).2 = Except.ok b := by
  cases hfs : st.fs (modulePathOf n) with
  | none => exact ⟨false, by rw [launch_module_not_found st n a hfs]⟩
  | some c =>
    by_cases hext : (pyEndsWith (modulePathOf n) ".sh" || pyEndsWith (modulePathOf n) ".py") = true
    · exact ⟨true, by rw [launch_module_local_eq st n a c hssh hfs hext]⟩
    · exact ⟨false, by rw [launch_module_unsupported st n a c hfs (by simpa using hext)]⟩

/-- C3 witness: the amended statement evaluated at the start state. -/
theorem C3_local_no_raise_witness :
    mmBase.ssh_manager = none ∧ ∃ b, (launch_module mmBase "x" []).2 = Except.ok b :=
  ⟨rfl, C3_local_no_raise mmBase "x" [] rfl⟩

/-! ## C5: launch of a missing module -/

/-- C5: launching a module name with no file in local storage returns
`False` and leaves the running-instance table exactly unchanged, for
every argument list. -/
theorem C5_launch_missing (st : MMState) (n : String) (a : List String)
    (h : st.fs (modulePathOf n) = none) :
    (launch_module st n a).2 = Except.ok false ∧
      (launch_module st n a).1.active_processes = st.active_processes := by
  rw [launch_module_not_found st n a h]
  exact ⟨rfl, rfl⟩

/-- C5 witness: the statement evaluated on the empty start state and the
absent name `ghost.sh`. -/
theorem C5_launch_missing_witness :
    mmBase.fs (modulePathOf "ghost.sh") = none ∧
      (launch_module mmBase "ghost.sh" ["a", "b"]).2 = Except.ok false ∧
      (launch_module mmBase "ghost.sh" ["a", "b"]).1.active_processes =
        mmBase.active_processes :=
  ⟨rfl, C5_launch_missing mmBase "ghost.sh" ["a", "b"] rfl⟩

/-! ## C6: two successive local launches of one module -/

/-- C6: two successive successful local launches of the same module
leave exactly one entry for that name in the running-instance table; the
second handle overwrites the first without any termination request
(`terminated` stays as it was), and a subsequent stop sends its
termination request to the second process only. -/
theorem C6_relaunch (st : MMState) (n : String) (a a2 : List String) (c : List Char)
    (hssh : st.ssh_manager = none)
    (hfs : st.fs (modulePathOf n) = some c)
    (hext : (pyEndsWith (modulePathOf n) ".sh" || pyEndsWith (modulePathOf n) ".py") = true)
    (hnodup : (st.active_processes.map Prod.fst).Nodup) :
    ∃ p1 p2, p1 ≠ p2 ∧
      (launch_module st n a).2 = Except.ok true ∧
      dictLookup n (launch_module st n a).1.active_processes = some p1 ∧
      (launch_module (launch_module st n a).1 n a2).2 = Except.ok true ∧
      dictLookup n (launch_module (launch_module st n a).1 n a2).1.active_processes = some p2 ∧
      (launch_module (launch_module st n a).1 n a2).1.active_processes.countP
        (fun e => e.1 == n) = 1 ∧
      (launch_module (launch_module st n a).1 n a2).1.terminated = st.terminated ∧
      (stop_module (launch_module (launch_module st n a).1 n a2).1 n).terminated =
        st.terminated ++ [p2] := by
  have h1 := launch_module_local_eq st n a c hssh hfs hext
  have hssh1 : (launch_local_branch st n c).ssh_manager = none := by
    rw [llb_ssh]; exact hssh
  have hfs1 : (launch_local_branch st n c).fs (modulePathOf n) = some c :=
    llb_fs_pres st n c _ c hfs
  have h2 := launch_module_local_eq (launch_local_branch st n c) n a2 c hssh1 hfs1 hext
  have e1 : (launch_module st n a).1 = launch_local_branch st n c := by rw [h1]
  have e1r : (launch_module st n a).2 = Except.ok true := by rw [h1]
  have e2 : (launch_module (launch_local_branch st n c) n a2).1 =
      launch_local_branch (launch_local_branch st n c) n c := by rw [h2]
  have e2r : (launch_module (launch_local_branch st n c) n a2).2 = Except.ok true := by
    rw [h2]
  have hlt : st.next_pid < (launch_local_branch st n c).next_pid := llb_next_pid st n c
  have hl1 : dictLookup n (launch_local_branch st n c).active_processes = some st.next_pid := by
    rw [llb_active]
    exact dictLookup_insert_self n st.next_pid st.active_processes
  have hl2 : dictLookup n
      (launch_local_branch (launch_local_branch st n c) n c).active_processes =
      some (launch_local_branch st n c).next_pid := by
    rw [llb_active]
    exact dictLookup_insert_self n _ _
  have hnodup1 : ((launch_local_branch st n c).active_processes.map Prod.fst).Nodup := by
    rw [llb_active]
    exact dictInsert_keys_nodup n st.next_pid st.active_processes hnodup
  have hcount : (launch_local_branch (launch_local_branch st n c) n c).active_processes.countP
      (fun e => e.1 == n) = 1 := by
    rw [llb_active]
    exact countP_dictInsert n _ _ hnodup1
  have hterm2 : (launch_local_branch (launch_local_branch st n c) n c).terminated =
      st.terminated := by
    rw [llb_terminated, llb_terminated]
  refine ⟨st.next_pid, (launch_local_branch st n c).next_pid, Nat.ne_of_lt hlt,
    e1r, ?_, ?_, ?_, ?_, ?_, ?_⟩
  · rw [e1]; exact hl1
  · rw [e1]; exact e2r
  · rw [e1, e2]; exact hl2
  · rw [e1, e2]; exact hcount
  · rw [e1, e2]; exact hterm2
  · rw [e1, e2]
    simp [stop_module, hl2, hterm2]

/-- C6 witness: the statement evaluated on the local state holding the
marker-free module `m.sh`. -/
theorem C6_relaunch_witness :
    c6St.ssh_manager = none ∧
      c6St.fs (modulePathOf "m.sh") = some plainContent ∧
      (pyEndsWith (modulePathOf "m.sh") ".sh" || pyEndsWith (modulePathOf "m.sh") ".py") = true ∧
      (∃ p1 p2, p1 ≠ p2 ∧
        (launch_module c6St "m.sh" []).2 = Except.ok true ∧
        dictLookup "m.sh" (launch_module c6St "m.sh" []).1.active_processes = some p1 ∧
        (launch_module (launch_module c6St "m.sh" []).1 "m.sh" []).2 = Except.ok true ∧
        dictLookup "m.sh"
          (launch_module (launch_module c6St "m.sh" []).1 "m.sh" []).1.active_processes =
          some p2 ∧
        (launch_module (launch_module c6St "m.sh" []).1 "m.sh" []).1.active_processes.countP
          (fun e => e.1 == "m.sh") = 1 ∧
        (launch_module (launch_module c6St "m.sh" []).1 "m.sh" []).1.terminated =
          c6St.terminated ∧
        (stop_module (launch_module (launch_module c6St "m.sh" []).1 "m.sh" []).1
            "m.sh").terminated = c6St.terminated ++ [p2]) :=
  ⟨rfl, by decide, by decide,
    C6_relaunch c6St "m.sh" [] [] plainContent rfl (by decide) (by decide) (by decide)⟩

/-! ## C7: stop on tracked and untracked names -/

/-- C7: stopping an untracked name only prints the "No running module"
report and leaves the whole state (in particular the running-instance
table) unchanged; stopping a tracked name issues a termination request
to exactly its process and removes exactly its entry, preserving every
other entry's lookup. -/
theorem C7_stop_behavior (st : MMState) (n : String) :
    (dictLookup n st.active_processes = none →
      stop_module st n =
        { st with printed := st.printed ++ ["No running module named " ++ n ++ "."] }) ∧
    (∀ p, dictLookup n st.active_processes = some p →
      (stop_module st n).terminated = st.terminated ++ [p] ∧
      (stop_module st n).active_processes.length + 1 = st.active_processes.length ∧
      (∀ k, k ≠ n → dictLookup k (stop_module st n).active_processes =
        dictLookup k st.active_processes) ∧
      ((st.active_processes.map Prod.fst).Nodup →
        dictLookup n (stop_module st n).active_processes = none)) := by
  constructor
  · intro h
    simp [stop_module, h]
  · intro p hp
    refine ⟨?_, ?_, ?_, ?_⟩
    · simp [stop_module, hp]
    · simp only [stop_module, hp]
      exact dictErase_length n st.active_processes p hp
    · intro k hk
      simp [stop_module, hp, dictLookup_erase_ne n k hk st.active_processes]
    · intro hnd
      simp [stop_module, hp, dictLookup_erase_self n st.active_processes hnd]

/-- C7 witness: the tracked case evaluated on a table holding `a ↦ 5`
and `b ↦ 7`, stopping `b`. -/
theorem C7_stop_behavior_witness :
    dictLookup "b" c7St.active_processes = some 7 ∧
      (stop_module c7St "b").terminated = c7St.terminated ++ [7] ∧
      (stop_module c7St "b").active_processes.length + 1 =
        c7St.active_processes.length ∧
      dictLookup "a" (stop_module c7St "b").active_processes =
        dictLookup "a" c7St.active_processes ∧
      dictLookup "b" (stop_module c7St "b").active_processes = none := by
  have h := (C7_stop_behavior c7St "b").2 7 (by decide)
  exact ⟨by decide, h.1, h.2.1, h.2.2.1 "a" (by decide), h.2.2.2 (by decide)⟩

end NMBCli
